import Mathlib

/-!
Verification of the EV charging-point monitor (`src/charging_point/ev_cp_monitor.py`)
against its natural-language specification.

The development shallowly embeds the monitor state and the bodies of
`EVCPMonitor.health_check_loop`, `EVCPMonitor._handle_engine_fault`,
`EVCPMonitor.connect_to_central` (the post-AUTHENTICATE response handling),
`EVCPMonitor._listen_central` (buffer management and message dispatch) and
`EVCPMonitor._monitor_progress` as pure Lean functions.  The wire codec
(`shared/protocol.py`) is not part of the provided sources; it is modelled
from the specification where needed and marked as such.
-/

namespace EVCPM

/-- Status tracking fields of `EVCPMonitor` relevant to engine health:
`engine_healthy` and `consecutive_failures` (the fixed `failure_threshold`
is a separate constant). -/
structure HealthState where
  engine_healthy : Bool
  consecutive_failures : Nat
deriving DecidableEq, Repr

/-- Source `self.failure_threshold = 3`. -/
def failure_threshold : Nat := 3

/-- Initial health state from `EVCPMonitor.__init__`: healthy, zero failures. -/
def initHealth : HealthState := { engine_healthy := true, consecutive_failures := 0 }

/-- Messages the monitor can send to the central controller from the health loop. -/
inductive Notification
  | FAULT
  | RECOVERY
deriving DecidableEq, Repr

/-- Embedding of `EVCPMonitor._handle_engine_fault`: increment
`consecutive_failures`; if the threshold is reached while currently healthy,
flip `engine_healthy` to false and send FAULT to the controller. -/
def handle_engine_fault (s : HealthState) : HealthState × List Notification :=
  let n := s.consecutive_failures + 1
  if failure_threshold ≤ n then
    if s.engine_healthy then
      ({ engine_healthy := false, consecutive_failures := n }, [Notification.FAULT])
    else
      ({ engine_healthy := s.engine_healthy, consecutive_failures := n }, [])
  else
    ({ engine_healthy := s.engine_healthy, consecutive_failures := n }, [])

/-- Outcome of one health-check cycle, as distinguished by the branches of
`EVCPMonitor.health_check_loop`: a decoded HEALTH_OK reply, a decoded
HEALTH_KO reply, a decoded reply of any other type, a decode failure,
an empty read, or a receive timeout. -/
inductive HealthEvent
  | replyOk
  | replyKo
  | replyOther (msgType : String)
  | decodeFail
  | emptyRead
  | timeout
deriving DecidableEq, Repr

/-- Embedding of one iteration of `EVCPMonitor.health_check_loop` after the
reply is classified.  `recoverySendOk` records whether the
`central_socket.send(recovery_msg)` call (performed before the state reset
when transitioning FAULTY to HEALTHY) returns normally; if it raises, the
reset is skipped and the enclosing `except` clause calls
`_handle_engine_fault`. -/
def health_cycle (s : HealthState) (ev : HealthEvent) (recoverySendOk : Bool) :
    HealthState × List Notification :=
  match ev with
  | HealthEvent.replyOk =>
      if s.engine_healthy then
        ({ engine_healthy := true, consecutive_failures := 0 }, [])
      else if recoverySendOk then
        ({ engine_healthy := true, consecutive_failures := 0 }, [Notification.RECOVERY])
      else
        handle_engine_fault s
  | HealthEvent.replyKo => handle_engine_fault s
  | HealthEvent.replyOther _ => (s, [])
  | HealthEvent.decodeFail => handle_engine_fault s
  | HealthEvent.emptyRead => handle_engine_fault s
  | HealthEvent.timeout => handle_engine_fault s

/-- One health-check cycle in which every socket send succeeds. -/
def health_step (s : HealthState) (ev : HealthEvent) : HealthState × List Notification :=
  health_cycle s ev true

/-- Run the health-check loop over a sequence of cycle outcomes, collecting
the notifications sent to the controller in order. -/
def run_health : HealthState → List HealthEvent → HealthState × List Notification
  | s, [] => (s, [])
  | s, ev :: evs =>
      let r := health_step s ev
      let r2 := run_health r.1 evs
      (r2.1, r.2 ++ r2.2)

theorem handle_engine_fault_failures (s : HealthState) :
    (handle_engine_fault s).1.consecutive_failures = s.consecutive_failures + 1 := by
  by_cases hc : failure_threshold ≤ s.consecutive_failures + 1 <;>
    cases hh : s.engine_healthy <;>
      simp [handle_engine_fault, hc, hh]

theorem handle_engine_fault_unhealthy (s : HealthState) (h : s.engine_healthy = false) :
    handle_engine_fault s =
      ({ engine_healthy := false, consecutive_failures := s.consecutive_failures + 1 }, []) := by
  by_cases hc : failure_threshold ≤ s.consecutive_failures + 1 <;>
    simp [handle_engine_fault, hc, h]

theorem run_health_cons (s : HealthState) (ev : HealthEvent) (evs : List HealthEvent) :
    run_health s (ev :: evs) =
      ((run_health (health_step s ev).1 evs).1,
        (health_step s ev).2 ++ (run_health (health_step s ev).1 evs).2) := rfl

theorem run_health_append (s : HealthState) (l1 l2 : List HealthEvent) :
    run_health s (l1 ++ l2) =
      ((run_health (run_health s l1).1 l2).1,
        (run_health s l1).2 ++ (run_health (run_health s l1).1 l2).2) := by
  induction l1 generalizing s with
  | nil => simp [run_health]
  | cons ev rest ih =>
      simp only [List.cons_append, run_health_cons, ih, List.append_assoc]

theorem run_health_ko_while_faulty (n : Nat) :
    ∀ m : Nat, 3 ≤ m →
      run_health { engine_healthy := false, consecutive_failures := m }
          (List.replicate n HealthEvent.replyKo) =
        ({ engine_healthy := false, consecutive_failures := m + n }, []) := by
  induction n with
  | zero => intro m _; simp [run_health]
  | succ k ih =>
      intro m hm
      have hstep : health_step { engine_healthy := false, consecutive_failures := m }
          HealthEvent.replyKo =
          ({ engine_healthy := false, consecutive_failures := m + 1 }, []) := by
        show handle_engine_fault { engine_healthy := false, consecutive_failures := m } = _
        rw [handle_engine_fault_unhealthy]
        rfl
      have h1 : (health_step { engine_healthy := false, consecutive_failures := m }
          HealthEvent.replyKo).1 =
          { engine_healthy := false, consecutive_failures := m + 1 } := by rw [hstep]
      have h2 : (health_step { engine_healthy := false, consecutive_failures := m }
          HealthEvent.replyKo).2 = ([] : List Notification) := by rw [hstep]
      rw [List.replicate_succ, run_health_cons, h1, h2, ih (m + 1) (by omega)]
      simp only [List.nil_append]
      have harith : m + 1 + k = m + (k + 1) := by omega
      rw [harith]

theorem run_health_three_ko (n : Nat) :
    run_health initHealth (List.replicate (3 + n) HealthEvent.replyKo) =
      ({ engine_healthy := false, consecutive_failures := 3 + n }, [Notification.FAULT]) := by
  have h3 : List.replicate (3 + n) HealthEvent.replyKo =
      List.replicate 3 HealthEvent.replyKo ++ List.replicate n HealthEvent.replyKo := by
    rw [← List.replicate_add]
  rw [h3, run_health_append]
  have hfirst : run_health initHealth (List.replicate 3 HealthEvent.replyKo) =
      ({ engine_healthy := false, consecutive_failures := 3 }, [Notification.FAULT]) := by
    decide
  rw [hfirst]
  rw [run_health_ko_while_faulty n 3 (by omega)]
  simp [Nat.add_comm]

/-- Invariant preserved by every health-check cycle with successful sends:
whenever the monitor is unhealthy, the failure count is at least the
threshold. -/
def HealthInv (s : HealthState) : Prop :=
  s.engine_healthy = false → failure_threshold ≤ s.consecutive_failures

theorem fault_preserves_inv (s : HealthState) (h : HealthInv s) :
    HealthInv (handle_engine_fault s).1 := by
  intro hfalse
  by_cases hc : failure_threshold ≤ s.consecutive_failures + 1
  · cases hh : s.engine_healthy <;> simp [handle_engine_fault, hc, hh]
  · cases hh : s.engine_healthy with
    | false =>
        have hle := h hh
        simp [handle_engine_fault, hc, hh]
        omega
    | true => simp [handle_engine_fault, hc, hh] at hfalse

theorem health_step_preserves_inv (s : HealthState) (ev : HealthEvent)
    (h : HealthInv s) : HealthInv (health_step s ev).1 := by
  cases ev with
  | replyOk =>
      intro hfalse
      cases hh : s.engine_healthy <;> simp [health_step, health_cycle, hh] at hfalse
  | replyOther t => exact h
  | replyKo => exact fault_preserves_inv s h
  | decodeFail => exact fault_preserves_inv s h
  | emptyRead => exact fault_preserves_inv s h
  | timeout => exact fault_preserves_inv s h

theorem run_health_preserves_inv (evs : List HealthEvent) :
    ∀ s : HealthState, HealthInv s → HealthInv (run_health s evs).1 := by
  induction evs with
  | nil => intro s h; exact h
  | cons ev rest ih =>
      intro s h
      exact ih (health_step s ev).1 (health_step_preserves_inv s ev h)

/-- C1: health hysteresis with `failure_threshold = 3`.  Starting HEALTHY:
two consecutive failures followed by one success keeps `engine_healthy` true
and sends no FAULT; three consecutive failures (and any number of further
failures) flips `engine_healthy` to false and sends FAULT exactly once for
the episode; a subsequent success flips back to healthy, resets
`consecutive_failures` to 0 and sends RECOVERY exactly once; and in every
reachable state, `engine_healthy = false` implies the failure count reached
the threshold. -/
theorem C1_health_hysteresis :
    (run_health initHealth [HealthEvent.replyKo, HealthEvent.replyKo, HealthEvent.replyOk] =
      ({ engine_healthy := true, consecutive_failures := 0 }, []))
  ∧ (∀ n : Nat,
      run_health initHealth (List.replicate (3 + n) HealthEvent.replyKo) =
        ({ engine_healthy := false, consecutive_failures := 3 + n }, [Notification.FAULT]))
  ∧ (∀ n : Nat,
      run_health initHealth
          (List.replicate (3 + n) HealthEvent.replyKo ++ [HealthEvent.replyOk]) =
        ({ engine_healthy := true, consecutive_failures := 0 },
          [Notification.FAULT, Notification.RECOVERY]))
  ∧ (∀ evs : List HealthEvent,
      (run_health initHealth evs).1.engine_healthy = false →
        failure_threshold ≤ (run_health initHealth evs).1.consecutive_failures) := by
  refine ⟨by decide, run_health_three_ko, ?_, ?_⟩
  · intro n
    rw [run_health_append, run_health_three_ko]
    rfl
  · intro evs
    exact run_health_preserves_inv evs initHealth (by intro h; cases h)

/-- Witness for C1 at concrete inputs: after three consecutive failures the
monitor is unhealthy and the invariant instance holds. -/
theorem C1_health_hysteresis_witness :
    failure_threshold ≤
      (run_health initHealth
        [HealthEvent.replyKo, HealthEvent.replyKo, HealthEvent.replyKo]).1.consecutive_failures :=
  C1_health_hysteresis.2.2.2
    [HealthEvent.replyKo, HealthEvent.replyKo, HealthEvent.replyKo] (by decide)

/-- C2 counterexample: a successfully decoded reply whose type is neither
HEALTH_OK nor HEALTH_KO does NOT reset `consecutive_failures` to 0 — the
`if HEALTH_OK / elif HEALTH_KO` chain has no else branch, so the cycle
leaves the count unchanged (here at 2). -/
theorem C2_counterexample :
    ¬ ((health_step { engine_healthy := true, consecutive_failures := 2 }
          (HealthEvent.replyOther "STATUS")).1.consecutive_failures = 0) := by
  decide

/-- C2 amended: a successfully-decoded-but-unexpected reply is ignored by
`health_check_loop` — it neither resets nor increments
`consecutive_failures`, changes no state, and sends nothing. -/
theorem C2_amended_unexpected_reply_ignored :
    ∀ (s : HealthState) (t : String) (b : Bool),
      health_cycle s (HealthEvent.replyOther t) b = (s, []) := by
  intro s t b
  rfl

/-- C8: a HEALTH_KO reply, a decode failure, an empty read and a receive
timeout are all routed to the single `_handle_engine_fault` path, which
increments `consecutive_failures` by exactly 1; the resulting state and
notifications are identical across the four causes. -/
theorem C8_shared_failure_path :
    ∀ (s : HealthState) (b : Bool),
      health_cycle s HealthEvent.replyKo b = handle_engine_fault s
    ∧ health_cycle s HealthEvent.decodeFail b = handle_engine_fault s
    ∧ health_cycle s HealthEvent.emptyRead b = handle_engine_fault s
    ∧ health_cycle s HealthEvent.timeout b = handle_engine_fault s
    ∧ (handle_engine_fault s).1.consecutive_failures = s.consecutive_failures + 1 := by
  intro s b
  exact ⟨rfl, rfl, rfl, rfl, handle_engine_fault_failures s⟩

/-- C10: when a HEALTH_OK reply arrives while the monitor is FAULTY, the
state reset happens only after the RECOVERY send succeeds.  If the send
raises, the whole cycle is handled by the exception path: the reset is
skipped, `_handle_engine_fault` increments `consecutive_failures`, the
monitor stays unhealthy and no RECOVERY is recorded; if the send succeeds,
the cycle resets the state and emits RECOVERY. -/
theorem C10_recovery_send_not_atomic :
    ∀ s : HealthState, s.engine_healthy = false →
      health_cycle s HealthEvent.replyOk false = handle_engine_fault s
    ∧ (health_cycle s HealthEvent.replyOk false).1.consecutive_failures =
        s.consecutive_failures + 1
    ∧ (health_cycle s HealthEvent.replyOk false).1.engine_healthy = false
    ∧ (health_cycle s HealthEvent.replyOk false).2 = []
    ∧ health_cycle s HealthEvent.replyOk true =
        ({ engine_healthy := true, consecutive_failures := 0 }, [Notification.RECOVERY]) := by
  intro s h
  have hcyc : health_cycle s HealthEvent.replyOk false = handle_engine_fault s := by
    unfold health_cycle
    rw [h]
    rfl
  have hfault := handle_engine_fault_unhealthy s h
  refine ⟨hcyc, ?_, ?_, ?_, ?_⟩
  · rw [hcyc, hfault]
  · rw [hcyc, hfault]
  · rw [hcyc, hfault]
  · unfold health_cycle
    rw [h]
    rfl

/-- Witness for C10 at the concrete faulty state with 3 accumulated failures. -/
theorem C10_recovery_send_not_atomic_witness :
    (health_cycle { engine_healthy := false, consecutive_failures := 3 }
        HealthEvent.replyOk false).1.consecutive_failures = 4 :=
  (C10_recovery_send_not_atomic
      { engine_healthy := false, consecutive_failures := 3 } (by decide)).2.1

end EVCPM

namespace EVCPM

/-- Outcome of `EVCPMonitor.connect_to_central` from the point where the
authentication response has been received, decoded and parsed into fields:
the returned success flag, the deny reason reported on a DENY response, the
resulting `encryption_key` attribute, and the messages sent to the
controller after the response (field lists as built by
`Protocol.build_message`). -/
structure AuthOutcome where
  success : Bool
  deny_reason : Option String
  encryption_key : Option String
  sends : List (List String)
deriving DecidableEq, Repr

/-- Embedding of the response dispatch in `EVCPMonitor.connect_to_central`
(lines 240 to 268): on AUTHENTICATED, store the session key from field 2
when present and send one REGISTER message with fields MONITOR, cp_id,
cp_id; on DENY, fail carrying the reason from field 2 (UNKNOWN when
absent); on any other type, fail. -/
def process_auth_response (cp_id : String) (key0 : Option String)
    (fields : List String) : AuthOutcome :=
  let msg_type := fields.getD 0 ""
  if msg_type = "AUTHENTICATED" then
    { success := true
      deny_reason := none
      encryption_key := if 2 < fields.length then some (fields.getD 2 "") else key0
      sends := [["REGISTER", "MONITOR", cp_id, cp_id]] }
  else if msg_type = "DENY" then
    { success := false
      deny_reason := some (if 2 < fields.length then fields.getD 2 "" else "UNKNOWN")
      encryption_key := key0
      sends := [] }
  else
    { success := false
      deny_reason := none
      encryption_key := key0
      sends := [] }

/-- C3: after AUTHENTICATE is sent, an AUTHENTICATED response carrying a
session key stores that key in `encryption_key`, sends exactly one REGISTER
message with fields MONITOR, cp_id, cp_id, and succeeds; a DENY response
fails carrying the deny reason verbatim and sends no REGISTER; any other
message type fails. -/
theorem C3_authentication :
    ∀ (cp x key reason other : String) (key0 : Option String),
      process_auth_response cp key0 ["AUTHENTICATED", x, key] =
        { success := true, deny_reason := none, encryption_key := some key,
          sends := [["REGISTER", "MONITOR", cp, cp]] }
    ∧ process_auth_response cp key0 ["DENY", x, reason] =
        { success := false, deny_reason := some reason, encryption_key := key0,
          sends := [] }
    ∧ (other ≠ "AUTHENTICATED" → other ≠ "DENY" →
        process_auth_response cp key0 [other, x] =
          { success := false, deny_reason := none, encryption_key := key0,
            sends := [] }) := by
  intro cp x key reason other key0
  refine ⟨?_, ?_, ?_⟩
  · simp [process_auth_response]
  · simp [process_auth_response]
  · intro h1 h2
    simp [process_auth_response, h1, h2]

/-- Witness for C3 at the concrete inputs of the specification: session key
abc is cached and one REGISTER is sent; BAD_PASSWORD is carried verbatim on
DENY; a stray PING response fails. -/
theorem C3_authentication_witness :
    process_auth_response "CP-001" none ["AUTHENTICATED", "CP-001", "abc"] =
      { success := true, deny_reason := none, encryption_key := some "abc",
        sends := [["REGISTER", "MONITOR", "CP-001", "CP-001"]] }
  ∧ process_auth_response "CP-001" none ["DENY", "CP-001", "BAD_PASSWORD"] =
      { success := false, deny_reason := some "BAD_PASSWORD", encryption_key := none,
        sends := [] }
  ∧ process_auth_response "CP-001" none ["PING", "CP-001"] =
      { success := false, deny_reason := none, encryption_key := none, sends := [] } :=
  ⟨(C3_authentication "CP-001" "CP-001" "abc" "BAD_PASSWORD" "PING" none).1,
    (C3_authentication "CP-001" "CP-001" "abc" "BAD_PASSWORD" "PING" none).2.1,
    (C3_authentication "CP-001" "CP-001" "abc" "BAD_PASSWORD" "PING" none).2.2
      (by decide) (by decide)⟩

end EVCPM

namespace EVCPM

/-- Driver and charging-session tracking fields of `EVCPMonitor`. -/
structure SessionState where
  current_driver : Option String
  charging_active : Bool
  charging_complete : Bool
  charge_progress : Nat
  last_progress_update : Nat
deriving DecidableEq, Repr

/-- Initial session fields from `EVCPMonitor.__init__`. -/
def initSession : SessionState :=
  { current_driver := none, charging_active := false, charging_complete := false,
    charge_progress := 0, last_progress_update := 0 }

/-- The in-memory state guarded by the monitor lock, as touched by the
controller-inbound listener. -/
structure MonitorState where
  health : HealthState
  session : SessionState
deriving DecidableEq, Repr

/-- Outcome report printed by the DRIVER_STOP branch of
`EVCPMonitor._listen_central`: session-complete banner when the final
progress reached 100, early-disconnect banner otherwise. -/
inductive StopReport
  | fullCompletion
  | earlyDisconnect (finalProgress : Nat)
deriving DecidableEq, Repr

/-- Embedding of the DRIVER_START branch of `EVCPMonitor._listen_central`
(lines 300 to 309): record the driver, activate the session and zero the
progress fields. -/
def handle_driver_start (driver_id : String) (m : MonitorState) : MonitorState :=
  { m with session :=
      { current_driver := some driver_id, charging_active := true,
        charging_complete := false, charge_progress := 0, last_progress_update := 0 } }

/-- Embedding of the CHARGING_COMPLETE branch of
`EVCPMonitor._listen_central` (lines 329 to 332). -/
def handle_charging_complete (m : MonitorState) : MonitorState :=
  { m with session :=
      { m.session with charging_complete := true, charge_progress := 100 } }

/-- Embedding of the DRIVER_STOP branch of `EVCPMonitor._listen_central`
(lines 341 to 372): snapshot whether a session was active or complete and
its final progress, reset the session fields, and report the outcome once
when a session existed. -/
def handle_driver_stop (m : MonitorState) : MonitorState × List StopReport :=
  let was_charging := m.session.charging_active || m.session.charging_complete
  let final_progress := m.session.charge_progress
  let s2 :=
    { m.session with
      current_driver := none
      charging_active := false
      charging_complete := false
      charge_progress := 0 }
  let reports :=
    if was_charging then
      if 100 ≤ final_progress then [StopReport.fullCompletion]
      else [StopReport.earlyDisconnect final_progress]
    else []
  ({ m with session := s2 }, reports)

/-- C7: DRIVER_STOP with a session that was active or complete classifies
the outcome as full completion exactly when progress reached 100, reports
it exactly once, and resets the session fields to idle; DRIVER_STOP with no
active or completed session reports nothing, leaves an idle state
unchanged, and never touches the health fields. -/
theorem C7_driver_stop :
    ∀ m : MonitorState,
      (handle_driver_stop m).1.health = m.health
    ∧ (handle_driver_stop m).1.session.current_driver = none
    ∧ (handle_driver_stop m).1.session.charging_active = false
    ∧ (handle_driver_stop m).1.session.charging_complete = false
    ∧ (handle_driver_stop m).1.session.charge_progress = 0
    ∧ ((m.session.charging_active || m.session.charging_complete) = true →
        (handle_driver_stop m).2 =
          [if 100 ≤ m.session.charge_progress then StopReport.fullCompletion
           else StopReport.earlyDisconnect m.session.charge_progress]
      ∧ (handle_driver_stop m).2.length = 1)
    ∧ ((m.session.charging_active || m.session.charging_complete) = false →
        (handle_driver_stop m).2 = []
      ∧ (m.session.current_driver = none → m.session.charge_progress = 0 →
          (handle_driver_stop m).1 = m)) := by
  intro m
  refine ⟨rfl, rfl, rfl, rfl, rfl, ?_, ?_⟩
  · intro hwas
    by_cases hp : 100 ≤ m.session.charge_progress <;>
      simp [handle_driver_stop, hwas, hp]
  · intro hwas
    have hact : m.session.charging_active = false := by
      cases hb : m.session.charging_active <;> simp [hb] at hwas ⊢
    have hcom : m.session.charging_complete = false := by
      cases hb : m.session.charging_complete <;> simp [hb] at hwas ⊢
    refine ⟨by simp [handle_driver_stop, hwas], ?_⟩
    intro hdrv hprog
    cases m with
    | mk h s =>
        cases s
        simp_all [handle_driver_stop]

/-- Witness for C7: a stop after an active session at progress 40 reports
one early disconnect; a second stop on the resulting idle state is a strict
no-op. -/
theorem C7_driver_stop_witness :
    (handle_driver_stop
        { health := initHealth,
          session := { current_driver := some "DRV-1", charging_active := true,
                       charging_complete := false, charge_progress := 40,
                       last_progress_update := 40 } }).2 =
      [StopReport.earlyDisconnect 40]
  ∧ (handle_driver_stop
        { health := initHealth,
          session := { current_driver := none, charging_active := false,
                       charging_complete := false, charge_progress := 0,
                       last_progress_update := 40 } }).1 =
      { health := initHealth,
        session := { current_driver := none, charging_active := false,
                     charging_complete := false, charge_progress := 0,
                     last_progress_update := 40 } } :=
  ⟨by
    have h := (C7_driver_stop
      { health := initHealth,
        session := { current_driver := some "DRV-1", charging_active := true,
                     charging_complete := false, charge_progress := 40,
                     last_progress_update := 40 } }).2.2.2.2.2.1 (by decide)
    rw [h.1]
    decide,
   ((C7_driver_stop
      { health := initHealth,
        session := { current_driver := none, charging_active := false,
                     charging_complete := false, charge_progress := 0,
                     last_progress_update := 40 } }).2.2.2.2.2.2 (by decide)).2
     (by decide) (by decide)⟩

end EVCPM

namespace EVCPM

/-- Initial monitor state from `EVCPMonitor.__init__`. -/
def initMonitor : MonitorState := { health := initHealth, session := initSession }

/-- Progress computed by `EVCPMonitor._monitor_progress` from the elapsed
wall-clock seconds: `min(int((elapsed / 14.0) * 100), 100)`. -/
def progress_of (elapsed : ℚ) : Nat :=
  min (Int.toNat ⌊elapsed / 14 * 100⌋) 100

/-- Embedding of one iteration of the loop in
`EVCPMonitor._monitor_progress`, parameterised by the elapsed seconds at
this tick: exit when neither active nor complete, idle when complete, else
compute the progress and update the shared fields only when it advanced by
at least 14 past the last reported value, marking the session complete when
the updated progress reached 100. -/
def progress_tick (s : SessionState) (elapsed : ℚ) : SessionState :=
  if s.charging_active = false ∧ s.charging_complete = false then s
  else if s.charging_complete then s
  else
    let progress := progress_of elapsed
    if s.last_progress_update + 14 ≤ progress then
      let s2 := { s with last_progress_update := progress, charge_progress := progress }
      if 100 ≤ progress then { s2 with charging_complete := true } else s2
    else s

/-- Run the progress loop over the sequence of elapsed times observed at
its successive ticks. -/
def progress_run (s : SessionState) : List ℚ → SessionState
  | [] => s
  | e :: es => progress_run (progress_tick s e) es

/-- Session state right after the DRIVER_START branch ran. -/
def startedSession : SessionState := (handle_driver_start "DRV-1" initMonitor).session

theorem progress_of_le_100 (e : ℚ) : progress_of e ≤ 100 :=
  min_le_right _ _

theorem progress_tick_stuck (s : SessionState) (e : ℚ)
    (hact : s.charging_active = true) (hcom : s.charging_complete = false)
    (hlast : 87 ≤ s.last_progress_update) : progress_tick s e = s := by
  have hp : progress_of e ≤ 100 := progress_of_le_100 e
  have hgate : ¬ (s.last_progress_update + 14 ≤ progress_of e) := by omega
  simp [progress_tick, hact, hcom, hgate]

theorem progress_run_stuck (es : List ℚ) :
    ∀ s : SessionState, s.charging_active = true → s.charging_complete = false →
      87 ≤ s.last_progress_update → progress_run s es = s := by
  induction es with
  | nil => intro s _ _ _; rfl
  | cons e rest ih =>
      intro s hact hcom hlast
      show progress_run (progress_tick s e) rest = s
      rw [progress_tick_stuck s e hact hcom hlast]
      exact ih s hact hcom hlast

/-- C6: the computed progress follows `min(100, floor(elapsed / 14 * 100))`
and the shared field is only updated when it advanced by at least 14, but
the completion clause of the claim fails on the code: with ticks observed
at elapsed 13s and then 15s (possible under scheduling drift, since ticks
only sleep at least 2s), the first tick reports 92, and from then on the
gate `last_progress_update + 14 <= progress` can never be satisfied because
progress is capped at 100 < 92 + 14 — so even though elapsed exceeded the
total duration of 14s, `charge_progress` stays at 92 and
`charging_complete` is never set, for every continuation of ticks. -/
theorem C6_progress_gate_blocks_completion :
    progress_of 13 = 92
  ∧ progress_of 15 = 100
  ∧ progress_run startedSession [13, 15] =
      { current_driver := some "DRV-1", charging_active := true,
        charging_complete := false, charge_progress := 92, last_progress_update := 92 }
  ∧ (∀ es : List ℚ,
      (progress_run startedSession (13 :: 15 :: es)).charging_complete = false
    ∧ (progress_run startedSession (13 :: 15 :: es)).charge_progress = 92) := by
  have h13 : progress_of 13 = 92 := by
    unfold progress_of
    norm_num
    decide
  have h15 : progress_of 15 = 100 := by
    unfold progress_of
    norm_num
  have hs0 : startedSession =
      { current_driver := some "DRV-1", charging_active := true,
        charging_complete := false, charge_progress := 0, last_progress_update := 0 } := rfl
  have t1 : progress_tick startedSession 13 =
      { current_driver := some "DRV-1", charging_active := true,
        charging_complete := false, charge_progress := 92, last_progress_update := 92 } := by
    rw [hs0]
    simp [progress_tick, h13]
  have t2 : progress_tick
      { current_driver := some "DRV-1", charging_active := true,
        charging_complete := false, charge_progress := 92, last_progress_update := 92 } 15 =
      { current_driver := some "DRV-1", charging_active := true,
        charging_complete := false, charge_progress := 92, last_progress_update := 92 } := by
    simp [progress_tick, h15]
  have hrun : progress_run startedSession [13, 15] =
      { current_driver := some "DRV-1", charging_active := true,
        charging_complete := false, charge_progress := 92, last_progress_update := 92 } := by
    simp only [progress_run]
    rw [t1]
    exact t2
  refine ⟨h13, h15, hrun, ?_⟩
  intro es
  have hsteps : progress_run startedSession (13 :: 15 :: es) =
      progress_run
        { current_driver := some "DRV-1", charging_active := true,
          charging_complete := false, charge_progress := 92, last_progress_update := 92 } es := by
    simp only [progress_run]
    rw [t1, t2]
  rw [hsteps, progress_run_stuck es _ rfl rfl (by decide)]
  exact ⟨rfl, rfl⟩

end EVCPM

namespace EVCPM

/-- Modelled from the spec: `shared/protocol.py` is referenced by the
monitor but absent from the provided sources.  Per the specification, a
frame is a start marker, a delimited field list, and an end-of-frame
marker (a reserved control byte) followed by a fixed trailer byte; the
caller code fixes the end-of-frame byte to 3 (the listener searches for
that byte and skips it plus one trailer byte).  Bytes are modelled as
natural numbers. -/
def STXv : Nat := 2

/-- Modelled from the spec: the reserved end-of-frame control byte, fixed
to 3 by the callers in `ev_cp_monitor.py`. -/
def ETXv : Nat := 3

/-- Modelled from the spec: the field delimiter byte. -/
def DELIMv : Nat := 124

/-- Modelled from the spec: the fixed trailer byte following the
end-of-frame marker. -/
def TRAILERv : Nat := 10

/-- Modelled from the spec: join the fields of a message with the
delimiter byte (the encoding direction of `Protocol.build_message` plus
`Protocol.encode`). -/
def joinB : List (List Nat) → List Nat
  | [] => []
  | [f] => f
  | f :: g :: rest => f ++ DELIMv :: joinB (g :: rest)

/-- Modelled from the spec: split a payload on the delimiter byte (the
direction of `Protocol.parse_message`). -/
def splitB : List Nat → List (List Nat)
  | [] => [[]]
  | b :: rest =>
      if b = DELIMv then [] :: splitB rest
      else
        match splitB rest with
        | [] => [[b]]
        | f :: fs => (b :: f) :: fs

/-- Index of the first end-of-frame byte in a buffer, mirroring the
listener find call on the end-of-frame byte. -/
def findETX : List Nat → Option Nat
  | [] => none
  | b :: rest => if b = ETXv then some 0 else (findETX rest).map (fun j => j + 1)

/-- Modelled from the spec: the three decode outcomes — complete valid
frame, frame present but malformed, incomplete input. -/
inductive DecStatus
  | OK
  | INCOMPLETE
  | CORRUPT
deriving DecidableEq, Repr

/-- Modelled from the spec: `decode(buffer)` returns the parsed message
and a status.  No end-of-frame byte, or an end-of-frame byte with the
trailer byte still missing, is INCOMPLETE; a frame whose start marker or
trailer byte is wrong is CORRUPT; otherwise the fields between the start
marker and the end-of-frame byte are split out and the frame is OK. -/
def decode (buf : List Nat) : Option (List (List Nat)) × DecStatus :=
  match findETX buf with
  | none => (none, DecStatus.INCOMPLETE)
  | some i =>
      if i + 1 < buf.length then
        if buf.headD 0 = STXv ∧ buf.getD (i + 1) 0 = TRAILERv then
          (some (splitB ((buf.take i).drop 1)), DecStatus.OK)
        else (none, DecStatus.CORRUPT)
      else (none, DecStatus.INCOMPLETE)

/-- Modelled from the spec: `encode` wraps the joined fields between the
start marker and the end-of-frame marker plus trailer byte. -/
def encode (m : List (List Nat)) : List Nat :=
  STXv :: (joinB m ++ [ETXv, TRAILERv])

/-- Concatenation of the encodings of a list of messages, as delivered by
one socket read containing several complete frames. -/
def encodeAll : List (List (List Nat)) → List Nat
  | [] => []
  | m :: ms => encode m ++ encodeAll ms

/-- Well-formed message: nonempty field list, fields free of the
end-of-frame and delimiter bytes (the spec rejects such fields before
encoding). -/
def validMsg (m : List (List Nat)) : Prop :=
  m ≠ [] ∧ ∀ f ∈ m, ETXv ∉ f ∧ DELIMv ∉ f

instance : DecidablePred validMsg := fun m => by
  unfold validMsg
  infer_instance

/-- Embedding of the inner `while len(buffer) > 0` drain loop of
`EVCPMonitor._listen_central`: decode the buffer; when valid, advance the
buffer past the first end-of-frame byte plus the trailer byte, dispatch
the message and loop; otherwise stop and keep the buffer.  The fuel
argument bounds the number of iterations (each one consumes at least two
bytes, so the buffer length is sufficient fuel). -/
def drain (fuel : Nat) (buf : List Nat) : List Nat × List (List (List Nat)) :=
  match fuel with
  | 0 => (buf, [])
  | Nat.succ f =>
      if buf = [] then (buf, [])
      else
        match decode buf with
        | (some msg, DecStatus.OK) =>
            let i := (findETX buf).getD 0
            let r := drain f (buf.drop (i + 2))
            (r.1, msg :: r.2)
        | _ => (buf, [])

/-- Listener connection state: the receive buffer retained across reads
and whether the listener has stopped consuming the connection. -/
structure ListenState where
  buffer : List Nat
  closed : Bool
deriving DecidableEq, Repr

/-- Embedding of one outer iteration of `EVCPMonitor._listen_central`: an
empty read ends the listener; otherwise the chunk is appended to the
buffer and the drain loop runs.  Nothing in the loop closes the
connection on a decode failure. -/
def listen_recv_step (st : ListenState) (chunk : List Nat) :
    ListenState × List (List (List Nat)) :=
  if chunk = [] then ({ st with closed := true }, [])
  else
    let buf := st.buffer ++ chunk
    let r := drain buf.length buf
    ({ buffer := r.1, closed := st.closed }, r.2)

theorem drain_succ (f : Nat) (buf : List Nat) :
    drain (f + 1) buf =
      if buf = [] then (buf, [])
      else
        match decode buf with
        | (some msg, DecStatus.OK) =>
            let i := (findETX buf).getD 0
            let r := drain f (buf.drop (i + 2))
            (r.1, msg :: r.2)
        | _ => (buf, []) := rfl

theorem drain_nondestructive (fuel : Nat) (buf : List Nat)
    (h : (decode buf).2 ≠ DecStatus.OK) : drain fuel buf = (buf, []) := by
  cases fuel with
  | zero => rfl
  | succ k =>
      rw [drain_succ]
      by_cases hb : buf = []
      · rw [if_pos hb]
      · rw [if_neg hb]
        rcases hd : decode buf with ⟨o, stt⟩
        rw [hd] at h
        cases o with
        | none => cases stt <;> rfl
        | some m =>
            cases stt with
            | OK => exact absurd rfl h
            | INCOMPLETE => rfl
            | CORRUPT => rfl

theorem drain_step (fuel : Nat) (buf : List Nat) (m : List (List Nat)) (i : Nat)
    (hd : decode buf = (some m, DecStatus.OK)) (hfind : findETX buf = some i) :
    drain (fuel + 1) buf =
      ((drain fuel (buf.drop (i + 2))).1, m :: (drain fuel (buf.drop (i + 2))).2) := by
  have hb : buf ≠ [] := by
    intro h0
    rw [h0] at hfind
    exact Option.noConfusion hfind
  rw [drain_succ, if_neg hb, hd]
  simp [hfind]

theorem drain_suffix (fuel : Nat) : ∀ buf : List Nat, (drain fuel buf).1 <:+ buf := by
  induction fuel with
  | zero => intro buf; exact List.suffix_refl buf
  | succ k ih =>
      intro buf
      by_cases hb : buf = []
      · rw [drain_succ, if_pos hb]
      · rw [drain_succ, if_neg hb]
        rcases hd : decode buf with ⟨o, stt⟩
        cases o with
        | none => cases stt <;> exact List.suffix_refl buf
        | some m =>
            cases stt with
            | OK => exact (ih _).trans (List.drop_suffix _ _)
            | INCOMPLETE => exact List.suffix_refl buf
            | CORRUPT => exact List.suffix_refl buf

end EVCPM

namespace EVCPM

theorem splitB_no_delim (f : List Nat) : DELIMv ∉ f → splitB f = [f] := by
  induction f with
  | nil => intro _; rfl
  | cons b rest ih =>
      intro h
      have hb : ¬ (b = DELIMv) := fun hb => h (by simp [hb])
      have hrest : DELIMv ∉ rest := fun hx => h (List.mem_cons_of_mem b hx)
      simp [splitB, hb, ih hrest]

theorem splitB_prepend (f t : List Nat) :
    DELIMv ∉ f → splitB (f ++ DELIMv :: t) = f :: splitB t := by
  induction f with
  | nil =>
      intro _
      show splitB (DELIMv :: t) = [] :: splitB t
      simp [splitB]
  | cons b rest ih =>
      intro h
      have hb : ¬ (b = DELIMv) := fun hb => h (by simp [hb])
      have hrest : DELIMv ∉ rest := fun hx => h (List.mem_cons_of_mem b hx)
      simp [splitB, hb, ih hrest]

theorem splitB_joinB (fs : List (List Nat)) :
    fs ≠ [] → (∀ f ∈ fs, DELIMv ∉ f) → splitB (joinB fs) = fs := by
  induction fs with
  | nil => intro h _; exact absurd rfl h
  | cons f rest ih =>
      intro _ hf
      cases rest with
      | nil =>
          show splitB f = [f]
          exact splitB_no_delim f (hf f (by simp))
      | cons g rest2 =>
          show splitB (f ++ DELIMv :: joinB (g :: rest2)) = f :: g :: rest2
          rw [splitB_prepend f _ (hf f (by simp))]
          rw [ih (by simp) (fun x hx => hf x (List.mem_cons_of_mem f hx))]

theorem joinB_no_etx (m : List (List Nat)) :
    (∀ f ∈ m, ETXv ∉ f ∧ DELIMv ∉ f) → ETXv ∉ joinB m := by
  induction m with
  | nil => intro _; simp [joinB]
  | cons f rest ih =>
      intro h
      cases rest with
      | nil => exact (h f (by simp)).1
      | cons g rest2 =>
          have hf := (h f (by simp)).1
          have hrest : ETXv ∉ joinB (g :: rest2) :=
            ih (fun x hx => h x (List.mem_cons_of_mem f hx))
          show ETXv ∉ f ++ DELIMv :: joinB (g :: rest2)
          simp [List.mem_append, List.mem_cons, hf, hrest]
          decide

theorem findETX_append_of_not_mem (l l2 : List Nat) :
    ETXv ∉ l → findETX (l ++ l2) = (findETX l2).map (fun j => j + l.length) := by
  induction l with
  | nil =>
      intro _
      show findETX l2 = _
      cases findETX l2 <;> simp
  | cons b rest ih =>
      intro h
      have hb : ¬ (b = ETXv) := fun hb => h (by simp [hb])
      have hrest : ETXv ∉ rest := fun hx => h (List.mem_cons_of_mem b hx)
      show findETX (b :: (rest ++ l2)) = _
      rw [findETX, if_neg hb, ih hrest]
      cases findETX l2 <;> simp
      omega

theorem findETX_encode_append (m : List (List Nat)) (rest : List Nat)
    (h : validMsg m) : findETX (encode m ++ rest) = some ((joinB m).length + 1) := by
  have hnoetx : ETXv ∉ joinB m := joinB_no_etx m h.2
  have hform : encode m ++ rest = STXv :: (joinB m ++ ([ETXv, TRAILERv] ++ rest)) := by
    simp [encode]
  rw [hform, findETX, if_neg (by decide)]
  rw [findETX_append_of_not_mem (joinB m) _ hnoetx]
  have hhead : findETX ([ETXv, TRAILERv] ++ rest) = some 0 := by
    show findETX (ETXv :: (TRAILERv :: rest)) = some 0
    rw [findETX, if_pos rfl]
  rw [hhead]
  simp

theorem encode_length (m : List (List Nat)) :
    (encode m).length = (joinB m).length + 3 := by
  simp [encode]

theorem decode_encode_append (m : List (List Nat)) (rest : List Nat)
    (h : validMsg m) :
    decode (encode m ++ rest) = (some m, DecStatus.OK)
  ∧ findETX (encode m ++ rest) = some ((joinB m).length + 1)
  ∧ (encode m ++ rest).drop ((joinB m).length + 1 + 2) = rest := by
  have hfind := findETX_encode_append m rest h
  have hdrop : (encode m ++ rest).drop ((joinB m).length + 1 + 2) = rest := by
    have hlen3 : (joinB m).length + 1 + 2 = (encode m).length := by
      rw [encode_length]
    rw [hlen3]
    exact List.drop_left (encode m) rest
  refine ⟨?_, hfind, hdrop⟩
  have hlen : (joinB m).length + 1 + 1 < (encode m ++ rest).length := by
    rw [List.length_append, encode_length]
    omega
  have hhead : (encode m ++ rest).headD 0 = STXv := by
    simp [encode]
  have hget : (encode m ++ rest).getD ((joinB m).length + 1 + 1) 0 = TRAILERv := by
    show (STXv :: ((joinB m ++ [ETXv, TRAILERv]) ++ rest)).getD ((joinB m).length + 1 + 1) 0
        = TRAILERv
    rw [List.getD_cons_succ]
    rw [List.append_assoc]
    rw [List.getD_append_right (joinB m) ([ETXv, TRAILERv] ++ rest) 0 ((joinB m).length + 1)
      (by omega)]
    have hidx : (joinB m).length + 1 - (joinB m).length = 1 := by omega
    rw [hidx]
    rfl
  have htake : ((encode m ++ rest).take ((joinB m).length + 1)).drop 1 = joinB m := by
    have hform : encode m ++ rest = STXv :: (joinB m ++ ([ETXv, TRAILERv] ++ rest)) := by
      simp [encode]
    rw [hform, List.take_succ_cons]
    show (joinB m ++ ([ETXv, TRAILERv] ++ rest)).take (joinB m).length = joinB m
    exact List.take_left _ _
  unfold decode
  rw [hfind]
  simp only [Option.getD_some]
  rw [if_pos hlen, if_pos ⟨hhead, hget⟩, htake]
  rw [splitB_joinB m h.1 (fun f hf => (h.2 f hf).2)]

theorem drain_encodeAll (msgs : List (List (List Nat))) :
    ∀ fuel : Nat, (∀ m ∈ msgs, validMsg m) → (encodeAll msgs).length ≤ fuel →
      drain fuel (encodeAll msgs) = ([], msgs) := by
  induction msgs with
  | nil =>
      intro fuel _ _
      cases fuel with
      | zero => rfl
      | succ k =>
          show drain (k + 1) ([] : List Nat) = ([], [])
          rw [drain_succ, if_pos rfl]
  | cons m rest ih =>
      intro fuel hv hlen
      have hvm : validMsg m := hv m (List.mem_cons_self m rest)
      obtain ⟨hdec, hfind, hdrop⟩ := decode_encode_append m (encodeAll rest) hvm
      have hblen : (encodeAll (m :: rest)).length =
          (joinB m).length + 3 + (encodeAll rest).length := by
        show (encode m ++ encodeAll rest).length = _
        rw [List.length_append, encode_length]
      cases fuel with
      | zero =>
          exfalso
          rw [hblen] at hlen
          omega
      | succ k =>
          show drain (k + 1) (encode m ++ encodeAll rest) = ([], m :: rest)
          rw [drain_step k (encode m ++ encodeAll rest) m ((joinB m).length + 1) hdec hfind]
          rw [hdrop]
          rw [ih k (fun x hx => hv x (List.mem_cons_of_mem m hx))
            (by rw [hblen] at hlen; omega)]

end EVCPM

namespace EVCPM

/-- C4 counterexample: on a buffer holding a malformed frame (valid start
marker, end-of-frame byte present, wrong trailer byte 99) decode reports
CORRUPT, yet the listener step neither closes the connection nor drops the
bytes — it keeps the very same buffer and will retry decoding it on the
same stream, contradicting the claim that a CORRUPT result makes the
listener close the connection. -/
theorem C4_counterexample :
    (decode [2, 65, 3, 99]).2 = DecStatus.CORRUPT
  ∧ (listen_recv_step { buffer := [], closed := false } [2, 65, 3, 99]).1.closed = false
  ∧ (listen_recv_step { buffer := [], closed := false } [2, 65, 3, 99]).1.buffer
      = [2, 65, 3, 99] := by
  decide

/-- C4 amended: decode does distinguish OK, INCOMPLETE and CORRUPT, but
the controller-inbound listener does not treat CORRUPT specially: on any
decode outcome other than OK it leaves the connection open, retains the
whole buffer, dispatches nothing, and simply waits for more bytes,
retrying decode in place on the same stream. -/
theorem C4_amended_corrupt_not_closed :
    ∀ (st : ListenState) (chunk : List Nat),
      chunk ≠ [] → (decode (st.buffer ++ chunk)).2 ≠ DecStatus.OK →
        (listen_recv_step st chunk).1.closed = st.closed
      ∧ (listen_recv_step st chunk).1.buffer = st.buffer ++ chunk
      ∧ (listen_recv_step st chunk).2 = [] := by
  intro st chunk hc hd
  have hnd : drain (st.buffer ++ chunk).length (st.buffer ++ chunk) =
      (st.buffer ++ chunk, []) :=
    drain_nondestructive _ _ hd
  rw [List.length_append] at hnd
  simp [listen_recv_step, hc, hnd]

/-- Witness for the amended C4 at the concrete corrupt frame. -/
theorem C4_amended_corrupt_not_closed_witness :
    (listen_recv_step { buffer := [], closed := false } [2, 65, 3, 99]).1.buffer
      = [2, 65, 3, 99]
  ∧ (listen_recv_step { buffer := [], closed := false } [2, 65, 3, 99]).2 = [] :=
  ⟨(C4_amended_corrupt_not_closed { buffer := [], closed := false } [2, 65, 3, 99]
      (by decide) (by decide)).2.1,
    (C4_amended_corrupt_not_closed { buffer := [], closed := false } [2, 65, 3, 99]
      (by decide) (by decide)).2.2⟩

/-- C5: the listener buffer discipline.  A decode that does not return
OK leaves the buffer byte-for-byte intact; on OK the loop consumes exactly
the prefix up to the first end-of-frame byte plus the trailer byte and
keeps the rest; the resulting buffer is always a suffix of the incoming
one (trailing bytes are retained across reads); and when one read delivers
several complete frames the drain loop decodes and consumes them all,
leaving an empty buffer. -/
theorem C5_buffer_never_destructive :
    (∀ (fuel : Nat) (buf : List Nat),
        (decode buf).2 ≠ DecStatus.OK → drain fuel buf = (buf, []))
  ∧ (∀ (fuel : Nat) (buf : List Nat) (m : List (List Nat)) (i : Nat),
        decode buf = (some m, DecStatus.OK) → findETX buf = some i →
        drain (fuel + 1) buf =
          ((drain fuel (buf.drop (i + 2))).1, m :: (drain fuel (buf.drop (i + 2))).2))
  ∧ (∀ (fuel : Nat) (buf : List Nat), (drain fuel buf).1 <:+ buf)
  ∧ (∀ msgs : List (List (List Nat)), (∀ m ∈ msgs, validMsg m) →
        drain (encodeAll msgs).length (encodeAll msgs) = ([], msgs)) :=
  ⟨drain_nondestructive, drain_step, drain_suffix,
    fun msgs hv => drain_encodeAll msgs (encodeAll msgs).length hv (le_refl _)⟩

/-- Witness for C5: an incomplete two-byte buffer is kept unchanged, and a
read containing two complete frames is fully drained into its two
messages. -/
theorem C5_buffer_never_destructive_witness :
    drain 2 [2, 65] = ([2, 65], [])
  ∧ drain (encodeAll [[[72], [73]], [[74]]]).length (encodeAll [[[72], [73]], [[74]]])
      = ([], [[[72], [73]], [[74]]]) :=
  ⟨C5_buffer_never_destructive.1 2 [2, 65] (by decide),
    C5_buffer_never_destructive.2.2.2 [[[72], [73]], [[74]]] (by decide)⟩

end EVCPM

namespace EVCPM

/-- Primitive operations performed by the monitor loops, used to record
which operations happen inside the critical section of the shared lock. -/
inductive Action
  | lockAcquire
  | lockRelease
  | sendEngine (msg : String)
  | recvEngine
  | sendCentral (msg : String)
  | stateWrite
deriving DecidableEq, Repr

/-- Whether an action is a socket send or receive. -/
def Action.isSocketOp : Action → Bool
  | Action.sendEngine _ => true
  | Action.recvEngine => true
  | Action.sendCentral _ => true
  | _ => false

/-- Lock state after performing an action, given the state before it. -/
def heldAfter (a : Action) (held : Bool) : Bool :=
  match a with
  | Action.lockAcquire => true
  | Action.lockRelease => false
  | _ => held

/-- Annotate every action of a trace with whether the lock is held while
it executes. -/
def annotate : List Action → Bool → List (Action × Bool)
  | [], _ => []
  | a :: r, held => (a, heldAfter a held) :: annotate r (heldAfter a held)

/-- Whether a trace performs socket input or output while the lock is
held. -/
def ioWhileLocked (t : List Action) : Bool :=
  (annotate t false).any (fun p => p.1.isSocketOp && p.2)

/-- Trace of operations of `EVCPMonitor._handle_engine_fault`: the whole
body runs under `with self.lock`, including, on the HEALTHY to FAULTY
transition, the `central_socket.send(fault_msg)` call. -/
def handle_engine_fault_trace (s : HealthState) : List Action :=
  [Action.lockAcquire, Action.stateWrite] ++
  (if failure_threshold ≤ s.consecutive_failures + 1 then
      if s.engine_healthy then [Action.stateWrite, Action.sendCentral "FAULT"]
      else []
    else []) ++
  [Action.lockRelease]

/-- Trace of one `health_check_loop` cycle whose reply decodes to
HEALTH_OK: the health-check send and the receive happen before the lock is
taken; inside `with self.lock`, when the monitor was FAULTY, the RECOVERY
message is sent to the controller before the two state assignments. -/
def health_ok_cycle_trace (s : HealthState) : List Action :=
  [Action.sendEngine "HEALTH_CHECK", Action.recvEngine, Action.lockAcquire] ++
  (if s.engine_healthy then [] else [Action.sendCentral "RECOVERY"]) ++
  [Action.stateWrite, Action.stateWrite, Action.lockRelease]

/-- C9 counterexample: in the fault handler, at a healthy state with two
prior failures (so this cycle crosses the threshold), the FAULT send to
the controller is performed while the lock is held, contradicting the
claim that no socket send happens inside the critical section. -/
theorem C9_counterexample :
    ioWhileLocked
      (handle_engine_fault_trace { engine_healthy := true, consecutive_failures := 2 })
      = true := by
  decide

/-- C9 amended: the engine health-check send and receive do happen outside
the lock, but the FAULT and RECOVERY notifications to the controller are
sent inside the critical section: an OK cycle performs locked socket
output exactly when it is a recovery transition, and the fault handler
performs locked socket output exactly when it crosses the threshold while
healthy. -/
theorem C9_amended_notifications_inside_lock :
    ∀ s : HealthState,
      ioWhileLocked (health_ok_cycle_trace s) = !s.engine_healthy
    ∧ ioWhileLocked (handle_engine_fault_trace s) =
        (decide (failure_threshold ≤ s.consecutive_failures + 1) && s.engine_healthy)
    ∧ (annotate (health_ok_cycle_trace s) false).take 2 =
        [(Action.sendEngine "HEALTH_CHECK", false), (Action.recvEngine, false)] := by
  intro s
  refine ⟨?_, ?_, ?_⟩
  · cases hh : s.engine_healthy <;>
      simp [health_ok_cycle_trace, hh, ioWhileLocked, annotate, heldAfter, Action.isSocketOp]
  · by_cases hc : failure_threshold ≤ s.consecutive_failures + 1 <;>
      cases hh : s.engine_healthy <;>
        simp [handle_engine_fault_trace, hc, hh, ioWhileLocked, annotate, heldAfter,
          Action.isSocketOp]
  · cases hh : s.engine_healthy <;>
      simp [health_ok_cycle_trace, hh, annotate, heldAfter]

end EVCPM

namespace EVCPM

/-- Witness for the amended C2 at a concrete unexpected reply. -/
theorem C2_amended_unexpected_reply_ignored_witness :
    health_cycle { engine_healthy := true, consecutive_failures := 2 }
      (HealthEvent.replyOther "STATUS") true =
      ({ engine_healthy := true, consecutive_failures := 2 }, []) :=
  C2_amended_unexpected_reply_ignored
    { engine_healthy := true, consecutive_failures := 2 } "STATUS" true

/-- Witness for C8 at a concrete healthy state. -/
theorem C8_shared_failure_path_witness :
    health_cycle { engine_healthy := true, consecutive_failures := 0 }
      HealthEvent.timeout true =
      handle_engine_fault { engine_healthy := true, consecutive_failures := 0 } :=
  (C8_shared_failure_path { engine_healthy := true, consecutive_failures := 0 } true).2.2.2.1

/-- Witness for the amended C9 at a concrete faulty state: the recovery
cycle performs socket output while the lock is held. -/
theorem C9_amended_notifications_inside_lock_witness :
    ioWhileLocked
      (health_ok_cycle_trace { engine_healthy := false, consecutive_failures := 3 }) = true :=
  (C9_amended_notifications_inside_lock
    { engine_healthy := false, consecutive_failures := 3 }).1

end EVCPM
